import Mathlib

/-!
Verification development for the mruby garbage collector (src/gc.c).

The collector is embedded shallowly: the heap is a list of fixed-size slot
pages, objects are addressed by a pair (page id, slot index), and every C
function of gc.c that the properties below mention is translated into an
executable Lean function over an explicit state record.

Modelling conventions, used throughout:
- pointers to managed objects become values of type ObjId, with Option ObjId
  for nullable pointers; a lookup that fails models a dangling pointer and the
  operation leaves the state unchanged (the C code would have undefined
  behaviour there, and asserts against it in debug builds);
- size_t values become Nat, with SIZE_MAX spelled out where the source
  compares against it; the source's unsigned subtractions appear as Nat
  subtraction (they never underflow on states satisfying the collector's
  invariants);
- mruby/value.h and mruby/object.h are not part of the sources under
  verification, so the type-tag enumeration, the per-type child enumeration
  (mrb_gc_mark_iv, mrb_gc_mark_mt, mark_context, ...) and the external root
  set (global variables, built-in classes, execution contexts) are modelled
  from the spec: each slot carries a list of child object ids, and the state
  carries the external root set as a list of object ids;
- MRB_HEAP_PAGE_SIZE is a compile-time tunable (default 1024); the state
  carries it as the field heap_page_size so that concrete runs can use small
  pages;
- the two unbounded loops of gc.c (the gray-list drains, and the do-while of
  incremental_gc_finish) are written with an explicit fuel argument; the fuel
  passed at each call site is computed from the state and is an upper bound on
  the number of iterations the C loop performs (each drain iteration pops one
  gray entry and white-to-gray repaints balance against pushes, so
  whiteCount + gray length bounds the pops; the finish loop visits the phases
  in order ROOT, MARK, SWEEP once);
- the host allocator (mrb_basic_alloc_func) is an oracle, a function from the
  call number to Option Unit, and the allocation wrappers additionally return
  how many times they invoked it.
-/

namespace MrubyGC

/-- Colors from gc.c: white is 001 or 010, black 100, gray 000, red 111. -/
def GC_GRAY : Nat := 0

/-- First white color bit. -/
def GC_WHITE_A : Nat := 1

/-- Second white color bit. -/
def GC_WHITE_B : Nat := 2

/-- Black color. -/
def GC_BLACK : Nat := 4

/-- Red, the immortal color (MRB_GC_RED). -/
def GC_RED : Nat := 7

/-- Union of the two white bits. -/
def GC_WHITES : Nat := GC_WHITE_A ||| GC_WHITE_B

/-- Work unit for one incremental step. -/
def GC_STEP_SIZE : Nat := 1024

/-- MAJOR_GC_INC_RATIO from gc.c (renamed only because of a lexical
restriction on Lean identifiers in this development). -/
def major_gc_inc_percent : Nat := 120

/-- MAJOR_GC_TOOMANY from gc.c. -/
def major_gc_toomany : Nat := 10000

/-- SIZE_MAX for a 64-bit size_t. -/
def SIZE_MAX : Nat := 2 ^ 64 - 1

/-- Default MRB_HEAP_PAGE_SIZE; the macro is a compile-time tunable and the
state record carries the chosen value. -/
def MRB_HEAP_PAGE_SIZE : Nat := 1024

/-- Type tags. Modelled from the spec: the enum mrb_vtype lives in
mruby/value.h, which is not among the sources; only the numeric order
relative to MRB_TT_FREE and the distinctness of the tags matter here. -/
def MRB_TT_FALSE : Nat := 0

/-- Sentinel tag of a free slot. -/
def MRB_TT_FREE : Nat := 4

/-- Tag of a C pointer box. -/
def MRB_TT_CPTR : Nat := 7

/-- Tag of a plain object. -/
def MRB_TT_OBJECT : Nat := 8

/-- Tag of a class. -/
def MRB_TT_CLASS : Nat := 9

/-- Tag of a module. -/
def MRB_TT_MODULE : Nat := 10

/-- Tag of an included class. -/
def MRB_TT_ICLASS : Nat := 11

/-- Tag of a singleton class. -/
def MRB_TT_SCLASS : Nat := 12

/-- Tag of a string. -/
def MRB_TT_STRING : Nat := 16

/-- Tag of an environment. -/
def MRB_TT_ENV : Nat := 19

/-- Tag of C data. -/
def MRB_TT_CDATA : Nat := 20

/-- Tag of an inline struct. -/
def MRB_TT_ISTRUCT : Nat := 23

/-- Tag of a big integer. -/
def MRB_TT_BIGINT : Nat := 27

/-- The collector phases MRB_GC_STATE_ROOT, MRB_GC_STATE_MARK,
MRB_GC_STATE_SWEEP. -/
inductive GCPhase where
  | root
  | mark
  | sweep
deriving DecidableEq

/-- An object address: page id and slot index within the page. -/
abbrev ObjId := Nat × Nat

/-- One slot (struct RVALUE): the object header fields the collector reads,
plus the modelled child list standing for the per-type payload references
enumerated by the external mark adapters. -/
structure Slot where
  tt : Nat
  c : Option ObjId
  gc_color : Nat
  instance_tt : Nat
  children : List ObjId
deriving DecidableEq

/-- One heap page (struct mrb_heap_page). The intrusive free list threaded
through the slots is modelled as the list of free slot indices, head first. -/
structure Page where
  pid : Nat
  old : Bool
  freelist : List Nat
  objects : List Slot
deriving DecidableEq

/-- The collector state: the fields of struct mrb_gc together with the
mrb_state fields gc.c reads (exception slots, the arena, the root set, the
current-context pointer). The list free_heaps holds page ids, head first,
mirroring the free_next chain; sweeps holds the page id of the sweep cursor
(the last processed page), or none at the start of a sweep. -/
structure MrbState where
  heaps : List Page
  free_heaps : List Nat
  sweeps : Option Nat
  state : GCPhase
  current_white_part : Nat
  gray_list : List ObjId
  atomic_gray_list : List ObjId
  live : Nat
  live_after_mark : Nat
  threshold : Nat
  oldgen_threshold : Nat
  interval_ratio : Nat
  step_ratio : Nat
  generational : Bool
  full : Bool
  disabled : Bool
  iterating : Bool
  out_of_memory : Bool
  arena : List ObjId
  arena_capa : Nat
  page_counter : Nat
  heap_page_size : Nat
  roots : List ObjId
  exc : Option ObjId
  nomem_err : Option ObjId
  stack_err : Option ObjId
  object_class : Option ObjId
  c_present : Bool
deriving DecidableEq

/-- Find the page with the given id (first match, mirroring pointer
identity). -/
def findPage (l : List Page) (pid : Nat) : Option Page :=
  l.find? (fun pg => pg.pid == pid)

/-- Rewrite the first page with the given id. -/
def updatePage : List Page → Nat → (Page → Page) → List Page
  | [], _, _ => []
  | pg :: rest, pid, f =>
    if pg.pid = pid then f pg :: rest else pg :: updatePage rest pid f

/-- Dereference an object id. -/
def heapGet (s : MrbState) (o : ObjId) : Option Slot :=
  (findPage s.heaps o.1).bind (fun pg => pg.objects.get? o.2)

/-- Overwrite one slot of a page. -/
def setSlotInPage (i : Nat) (sl : Slot) (pg : Page) : Page :=
  { pg with objects := pg.objects.set i sl }

/-- Store a slot at an object id. -/
def heapSet (s : MrbState) (o : ObjId) (sl : Slot) : MrbState :=
  { s with heaps := updatePage s.heaps o.1 (setSlotInPage o.2 sl) }

/-- is_white from gc.c: a white bit is set (note that red, 111, also has the
white bits set). -/
def is_white (sl : Slot) : Bool := sl.gc_color &&& GC_WHITES != 0

/-- is_gray from gc.c. -/
def is_gray (sl : Slot) : Bool := sl.gc_color == GC_GRAY

/-- is_black from gc.c. -/
def is_black (sl : Slot) : Bool := sl.gc_color == GC_BLACK

/-- is_red from gc.c. -/
def is_red (sl : Slot) : Bool := sl.gc_color == GC_RED

/-- other_white_part from gc.c. -/
def other_white_part (s : MrbState) : Nat := s.current_white_part ^^^ GC_WHITES

/-- is_dead from gc.c: colored with the sweep-target white, or already a free
slot. -/
def is_dead (s : MrbState) (sl : Slot) : Bool :=
  (sl.gc_color &&& other_white_part s &&& GC_WHITES != 0) || sl.tt == MRB_TT_FREE

/-- Repaint an object in place (the paint_gray, paint_black,
paint_partial_white macros); a dangling id leaves the state unchanged. -/
def paint_color (s : MrbState) (o : ObjId) (col : Nat) : MrbState :=
  match heapGet s o with
  | none => s
  | some sl => heapSet s o { sl with gc_color := col }

/-- is_generational from gc.c. -/
def is_generational (s : MrbState) : Bool := s.generational

/-- is_major_gc from gc.c. -/
def is_major_gc (s : MrbState) : Bool := is_generational s && s.full

/-- is_minor_gc from gc.c. -/
def is_minor_gc (s : MrbState) : Bool := is_generational s && !s.full

/-- add_gray_list from gc.c: paint the object gray and push it on the
incremental gray list. -/
def add_gray_list (s : MrbState) (o : ObjId) : MrbState :=
  let s1 := paint_color s o GC_GRAY
  { s1 with gray_list := o :: s1.gray_list }

/-- mrb_gc_mark from gc.c: a null pointer, a non-white object, and a red
object are ignored; otherwise the object joins the gray list. -/
def mrb_gc_mark (s : MrbState) (o : Option ObjId) : MrbState :=
  match o with
  | none => s
  | some o =>
    match heapGet s o with
    | none => s
    | some sl =>
      if !is_white sl then s
      else if is_red sl then s
      else add_gray_list s o

/-- Mark every object of a list, in order. -/
def mark_list (s : MrbState) (l : List ObjId) : MrbState :=
  l.foldl (fun t o => mrb_gc_mark t (some o)) s

/-- gc_mark_children from gc.c: paint the object black, mark its class
pointer, then mark each child; the per-type child enumeration of the source
is represented by the slot's modelled child list, and the returned count is
the number of children. -/
def gc_mark_children (s : MrbState) (o : ObjId) : MrbState × Nat :=
  match heapGet s o with
  | none => (s, 0)
  | some sl =>
    let s1 := paint_color s o GC_BLACK
    let s2 := mrb_gc_mark s1 sl.c
    (mark_list s2 sl.children, sl.children.length)

/-- White slots in one page. -/
def whiteCountPage (pg : Page) : Nat := pg.objects.countP is_white

/-- White slots in the whole heap. -/
def whiteCount (s : MrbState) : Nat := (s.heaps.map whiteCountPage).sum

/-- Upper bound on the iterations of a gray-list drain starting from s: each
iteration pops one entry, and every push during the drain repaints a white
object gray, so pops are bounded by the initial length plus the white
count. -/
def markFuel (s : MrbState) : Nat := whiteCount s + s.gray_list.length

/-- The loop of gc_mark_gray_list, with explicit fuel. -/
def gc_mark_gray_list_go : Nat → MrbState → MrbState
  | 0, s => s
  | fuel + 1, s =>
    match s.gray_list with
    | [] => s
    | o :: rest =>
      gc_mark_gray_list_go fuel (gc_mark_children { s with gray_list := rest } o).1

/-- gc_mark_gray_list from gc.c: drain the incremental gray list. -/
def gc_mark_gray_list (s : MrbState) : MrbState :=
  gc_mark_gray_list_go (markFuel s) s

/-- The loop of incremental_marking_phase, with explicit fuel. -/
def incremental_marking_go : Nat → MrbState → Nat → Nat → MrbState × Nat
  | 0, s, _, tried => (s, tried)
  | fuel + 1, s, limit, tried =>
    match s.gray_list with
    | [] => (s, tried)
    | o :: rest =>
      if tried < limit then
        let p := gc_mark_children { s with gray_list := rest } o
        incremental_marking_go fuel p.1 limit (tried + p.2)
      else (s, tried)

/-- incremental_marking_phase from gc.c: drain gray objects until the work
budget is consumed, returning the work done. -/
def incremental_marking_phase (s : MrbState) (limit : Nat) : MrbState × Nat :=
  incremental_marking_go (markFuel s) s limit 0

/-- clear_error_object from gc.c: if the pre-allocated error object is still
white, paint it black, mark its class, and strip its payload references
(instance variables, message, backtrace), modelled as emptying its child
list. -/
def clear_error_object (s : MrbState) (o : Option ObjId) : MrbState :=
  match o with
  | none => s
  | some o =>
    match heapGet s o with
    | none => s
    | some sl =>
      if !is_white sl then s
      else
        let s1 := heapSet s o { sl with gc_color := GC_BLACK, children := [] }
        mrb_gc_mark s1 sl.c

/-- root_scan_phase from gc.c: outside a minor cycle both gray lists are
reset, then every root is marked. The external root set (global variables,
the built-in classes, top_self, the execution contexts) is the modelled list
roots; the arena and the pending exception are explicit. -/
def root_scan_phase (s : MrbState) : MrbState :=
  let s0 := if !is_minor_gc s then { s with gray_list := [], atomic_gray_list := [] }
            else s
  let s1 := mark_list s0 s0.roots
  let s2 := mark_list s1 s1.arena
  mrb_gc_mark s2 s2.exc

/-- final_marking_phase from gc.c: re-mark the arena, the external roots, and
the pending exception; strip the pre-allocated nomem and stack errors; drain
the gray list; splice the atomic gray list into the gray list and drain
again. -/
def final_marking_phase (s : MrbState) : MrbState :=
  let s1 := mark_list s s.arena
  let s2 := mark_list s1 s1.roots
  let s3 := mrb_gc_mark s2 s2.exc
  let s4 := clear_error_object s3 s3.nomem_err
  let s5 := clear_error_object s4 s4.stack_err
  let s6 := gc_mark_gray_list s5
  let s7 := { s6 with gray_list := s6.atomic_gray_list, atomic_gray_list := [] }
  gc_mark_gray_list s7

/-- prepare_incremental_sweep from gc.c: enter the sweep phase, reset the
sweep cursor, and record the live count at end of mark. -/
def prepare_incremental_sweep (s : MrbState) : MrbState :=
  { s with state := GCPhase.sweep, sweeps := none, live_after_mark := s.live }

/-- obj_free from gc.c, restricted to its effect on the slot header: the
per-type payload releases are external, and the function ends by tagging the
slot MRB_TT_FREE. -/
def obj_free (sl : Slot) : Slot :=
  { sl with tt := MRB_TT_FREE, c := none, children := [] }

/-- The inner slot loop of incremental_sweep_phase. Arguments: generational
flag, the sweep-target white, the current white, the slots of the page, the
index of the first slot, the accumulated free list, freed count and dead-slot
flag. Returns the rewritten slots, the free list, the freed count, and
whether every slot of the page ended up free. -/
def sweep_slots (gen : Bool) (ow cwp : Nat) :
    List Slot → Nat → List Nat → Nat → Bool → (List Slot × List Nat × Nat × Bool)
  | [], _, fl, freed, dead => ([], fl, freed, dead)
  | sl :: rest, idx, fl, freed, dead =>
    if (sl.gc_color &&& ow &&& GC_WHITES != 0) || sl.tt == MRB_TT_FREE then
      if sl.tt != MRB_TT_FREE then
        let r := sweep_slots gen ow cwp rest (idx + 1) (idx :: fl) (freed + 1) dead
        (obj_free sl :: r.1, r.2.1, r.2.2.1, r.2.2.2)
      else
        let r := sweep_slots gen ow cwp rest (idx + 1) fl freed dead
        (sl :: r.1, r.2.1, r.2.2.1, r.2.2.2)
    else
      let sl2 := if gen then sl else { sl with gc_color := cwp }
      let r := sweep_slots gen ow cwp rest (idx + 1) fl freed false
      (sl2 :: r.1, r.2.1, r.2.2.1, r.2.2.2)

/-- The page loop of incremental_sweep_phase. Arguments: minor and
generational flags, the sweep-target white, the current white, the page
capacity, the work limit, the pages after the cursor, the cursor, and the
work done so far. Returns the surviving processed pages followed by the
unprocessed remainder, the new cursor, the total work, and the total freed
count. A page whose slots all end up free is dropped (released to the host
allocator); a minor sweep skips pages marked old. -/
def incremental_sweep_go (minor gen : Bool) (ow cwp pageSize limit : Nat) :
    List Page → Option Nat → Nat → (List Page × Option Nat × Nat × Nat)
  | [], prev, tried => ([], prev, tried, 0)
  | pg :: rest, prev, tried =>
    if tried < limit then
      let r0 :=
        if minor && pg.old then (pg.objects, pg.freelist, 0, false)
        else sweep_slots gen ow cwp pg.objects 0 pg.freelist 0 true
      let freed := r0.2.2.1
      if r0.2.2.2 then
        let r := incremental_sweep_go minor gen ow cwp pageSize limit rest prev
          (tried + pageSize)
        (r.1, r.2.1, r.2.2.1, r.2.2.2 + freed)
      else
        let pg2 : Page :=
          { pg with objects := r0.1, freelist := r0.2.1, old := r0.2.1.isEmpty && minor }
        let r := incremental_sweep_go minor gen ow cwp pageSize limit rest
          (some pg2.pid) (tried + pageSize)
        (pg2 :: r.1, r.2.1, r.2.2.1, r.2.2.2 + freed)
    else (pg :: rest, prev, tried, 0)

/-- Split the page list at the sweep cursor: the pages up to and including
the cursor page, and the pages after it. -/
def split_after (pid : Nat) : List Page → (List Page × List Page)
  | [] => ([], [])
  | pg :: rest =>
    if pg.pid = pid then ([pg], rest)
    else
      let r := split_after pid rest
      (pg :: r.1, r.2)

/-- incremental_sweep_phase from gc.c: resume the page walk at the cursor,
sweep until the work limit is reached, then rebuild free_heaps from scratch
by scanning the surviving pages (prepending, as the source does). -/
def incremental_sweep_phase (s : MrbState) (limit : Nat) : MrbState × Nat :=
  let ba :=
    match s.sweeps with
    | none => (([] : List Page), s.heaps)
    | some pid => split_after pid s.heaps
  let r := incremental_sweep_go (is_minor_gc s) (is_generational s)
    (other_white_part s) s.current_white_part s.heap_page_size limit ba.2 s.sweeps 0
  let heaps2 := ba.1 ++ r.1
  let fh := heaps2.foldl (fun acc pg => if pg.freelist.isEmpty then acc else pg.pid :: acc) []
  let s2 :=
    { s with heaps := heaps2, sweeps := r.2.1, free_heaps := fh, live := s.live - r.2.2.2, live_after_mark := s.live_after_mark - r.2.2.2 }
  (s2, r.2.2.1)

/-- incremental_gc from gc.c: one transition of the phase machine, returning
the work done. -/
def incremental_gc (s : MrbState) (limit : Nat) : MrbState × Nat :=
  match s.state with
  | GCPhase.root =>
    let s1 := root_scan_phase s
    ({ s1 with state := GCPhase.mark, current_white_part := other_white_part s1 }, 0)
  | GCPhase.mark =>
    if s.gray_list.isEmpty then
      (prepare_incremental_sweep (final_marking_phase s), 0)
    else incremental_marking_phase s limit
  | GCPhase.sweep =>
    let r := incremental_sweep_phase s limit
    if r.2 = 0 then ({ r.1 with state := GCPhase.root }, 0) else r

/-- Fuel bounding the do-while of incremental_gc_finish: the phases are
visited in order ROOT, MARK, SWEEP, ROOT; each MARK call with a non-empty
gray list pops at least one entry, so markFuel bounds the MARK calls, and
each SWEEP call processes at least one remaining page. -/
def finish_fuel (s : MrbState) : Nat := markFuel s + s.heaps.length + 8

/-- The do-while loop of incremental_gc_finish, with explicit fuel. -/
def incremental_gc_finish_go : Nat → MrbState → MrbState
  | 0, s => s
  | fuel + 1, s =>
    let s1 := (incremental_gc s SIZE_MAX).1
    if s1.state = GCPhase.root then s1 else incremental_gc_finish_go fuel s1

/-- incremental_gc_finish from gc.c: run incremental_gc with an unbounded
budget until the machine returns to ROOT. -/
def incremental_gc_finish (s : MrbState) : MrbState :=
  incremental_gc_finish_go (finish_fuel s) s

/-- The work loop of incremental_gc_step, with explicit fuel. -/
def incremental_gc_step_go : Nat → MrbState → Nat → Nat → MrbState
  | 0, s, _, _ => s
  | fuel + 1, s, limit, result =>
    if result < limit then
      let r := incremental_gc s limit
      if r.1.state = GCPhase.root then r.1
      else incremental_gc_step_go fuel r.1 limit (result + r.2)
    else s

/-- incremental_gc_step from gc.c: run transitions until
GC_STEP_SIZE / 100 * step_ratio units of work are done or the cycle ends,
then set the threshold to live + GC_STEP_SIZE. -/
def incremental_gc_step (s : MrbState) : MrbState :=
  let limit := (GC_STEP_SIZE / 100) * s.step_ratio
  let s1 := incremental_gc_step_go (finish_fuel s) s limit 0
  { s1 with threshold := s1.live + GC_STEP_SIZE }

/-- The prefix of clear_all_old up to the point where the collector state
becomes SWEEP: finish a half-baked major cycle, then drop to non-generational
mode. The state passed to prepare_incremental_sweep inside clear_all_old is
exactly the value of this function. -/
def clear_all_old_sweep_entry (s : MrbState) : MrbState :=
  let s1 := if s.full then incremental_gc_finish s else s
  { s1 with generational := false }

/-- clear_all_old from gc.c: sweep the dead objects and reset every survivor
to white by running a non-generational sweep, then restore generational mode
and discard both gray lists. -/
def clear_all_old (s : MrbState) : MrbState :=
  let s2 := prepare_incremental_sweep (clear_all_old_sweep_entry s)
  let s3 := incremental_gc_finish s2
  { s3 with generational := true, gray_list := [], atomic_gray_list := [] }

/-- mrb_full_gc from gc.c: a missing current context, the disabled flag, or
the iterating flag suppress the call entirely; otherwise any in-flight cycle
is finished (through clear_all_old in generational mode), a complete cycle is
run, and the threshold is recomputed without a lower clamp. -/
def mrb_full_gc (s : MrbState) : MrbState :=
  if !s.c_present then s
  else if s.disabled || s.iterating then s
  else
    let s1 :=
      if is_generational s then { clear_all_old s with full := true }
      else if s.state ≠ GCPhase.root then incremental_gc_finish s
      else s
    let s2 := incremental_gc_finish s1
    let s3 := { s2 with threshold := (s2.live_after_mark / 100) * s2.interval_ratio }
    if is_generational s3 then
      { s3 with oldgen_threshold := (s3.live_after_mark / 100) * major_gc_inc_percent,
                full := false }
    else s3

/-- mrb_incremental_gc from gc.c: suppressed when disabled or iterating; a
minor cycle runs to completion, otherwise one step runs; on returning to
ROOT the threshold is recomputed with the GC_STEP_SIZE clamp, a finished
major stores or clamps the old-generation threshold, and a minor that grew
past it promotes the next cycle to a major via clear_all_old. -/
def mrb_incremental_gc (s : MrbState) : MrbState :=
  if s.disabled || s.iterating then s
  else
    let s1 := if is_minor_gc s then incremental_gc_finish s else incremental_gc_step s
    if s1.state = GCPhase.root then
      let t := (s1.live_after_mark / 100) * s1.interval_ratio
      let s2 := { s1 with threshold := if t < GC_STEP_SIZE then GC_STEP_SIZE else t }
      if is_major_gc s2 then
        let thr := (s2.live_after_mark / 100) * major_gc_inc_percent
        let s3 := { s2 with full := false }
        if thr < major_gc_toomany then { s3 with oldgen_threshold := thr }
        else mrb_full_gc s3
      else if is_minor_gc s2 && s2.oldgen_threshold < s2.live then
        { clear_all_old s2 with full := true }
      else s2
    else s1

/-- mrb_garbage_collect from gc.c. -/
def mrb_garbage_collect (s : MrbState) : MrbState := mrb_full_gc s

/-- mrb_field_write_barrier from gc.c: nothing happens unless obj is black
and value is a non-null, non-red object with a white bit set; then in
generational mode or the mark phase value joins the gray list, and otherwise
(the sweep phase) obj is repainted with the current white. -/
def mrb_field_write_barrier (s : MrbState) (obj : ObjId) (value : Option ObjId) :
    MrbState :=
  match value with
  | none => s
  | some v =>
    match heapGet s obj with
    | none => s
    | some so =>
      if !is_black so then s
      else
        match heapGet s v with
        | none => s
        | some sv =>
          if !is_white sv then s
          else if is_red sv then s
          else if is_generational s || s.state = GCPhase.mark then add_gray_list s v
          else paint_color s obj s.current_white_part

/-- mrb_write_barrier from gc.c: a black object is painted gray and pushed
onto the atomic gray list. -/
def mrb_write_barrier (s : MrbState) (obj : ObjId) : MrbState :=
  match heapGet s obj with
  | none => s
  | some so =>
    if !is_black so then s
    else
      let s1 := paint_color s obj GC_GRAY
      { s1 with atomic_gray_list := obj :: s1.atomic_gray_list }

/-- gc_start from gc.c (the GC.start method). -/
def gc_start (s : MrbState) : MrbState := mrb_full_gc s

/-- gc_enable from gc.c: clears the disabled flag, returning the previous
value. -/
def gc_enable (s : MrbState) : MrbState × Bool :=
  ({ s with disabled := false }, s.disabled)

/-- gc_disable from gc.c: sets the disabled flag, returning the previous
value. -/
def gc_disable (s : MrbState) : MrbState × Bool :=
  ({ s with disabled := true }, s.disabled)

/-- gc_interval_ratio_set from gc.c. -/
def gc_interval_ratio_set (s : MrbState) (r : Nat) : MrbState :=
  { s with interval_ratio := r }

/-- gc_step_ratio_set from gc.c. -/
def gc_step_ratio_set (s : MrbState) (r : Nat) : MrbState :=
  { s with step_ratio := r }

/-- change_gen_gc_mode from gc.c: raises a runtime error while disabled or
iterating; turning generational mode off clears all old objects, turning it
on finishes the current cycle and seeds the old-generation threshold. -/
def change_gen_gc_mode (s : MrbState) (enable : Bool) : Except String MrbState :=
  if s.disabled || s.iterating then
    Except.error ("generational mode changed when GC disabled")
  else
    let s1 :=
      if is_generational s && !enable then
        { clear_all_old s with full := false }
      else if !is_generational s && enable then
        let t := incremental_gc_finish s
        { t with oldgen_threshold := (t.live_after_mark / 100) * major_gc_inc_percent,
                 full := false }
      else s
    Except.ok { s1 with generational := enable }

/-- gc_generational_mode_set from gc.c (the GC.generational_mode= method):
change_gen_gc_mode runs only when the requested value differs from the
current mode; the requested value is returned. -/
def gc_generational_mode_set (s : MrbState) (enable : Bool) :
    Except String (MrbState × Bool) :=
  if s.generational ≠ enable then
    match change_gen_gc_mode s enable with
    | Except.error e => Except.error e
    | Except.ok s1 => Except.ok (s1, enable)
  else Except.ok (s, enable)

/-- add_heap from gc.c: a fresh page has every slot tagged free and the free
list threaded from the last slot down to the first; the page is prepended to
both heaps and free_heaps. The model draws fresh page identities from a
counter. -/
def add_heap (s : MrbState) : MrbState :=
  let freeSlot : Slot :=
    { tt := MRB_TT_FREE, c := none, gc_color := 0, instance_tt := 0, children := [] }
  let pg : Page :=
    { pid := s.page_counter, old := false,
      freelist := (List.range s.heap_page_size).reverse,
      objects := List.replicate s.heap_page_size freeSlot }
  { s with heaps := pg :: s.heaps, free_heaps := pg.pid :: s.free_heaps,
           page_counter := s.page_counter + 1 }

/-- gc_arena_keep from gc.c, growable-arena build (the default): when the
arena is full its capacity grows by three halves; the reallocation itself is
assumed to succeed. -/
def gc_arena_keep (s : MrbState) : MrbState :=
  if s.arena_capa ≤ s.arena.length then { s with arena_capa := s.arena_capa * 3 / 2 }
  else s

/-- gc_protect from gc.c: push the object onto the arena. -/
def gc_protect (s : MrbState) (p : ObjId) : MrbState :=
  { s with arena := s.arena ++ [p] }

/-- The state mrb_obj_alloc reaches just before popping a slot: the
threshold-triggered incremental step, the arena headroom check, and the page
addition when no page has a free slot. -/
def obj_alloc_pre (s : MrbState) : MrbState :=
  let s1 := if s.threshold < s.live then mrb_incremental_gc s else s
  let s2 := gc_arena_keep s1
  if s2.free_heaps.isEmpty then add_heap s2 else s2

/-- The class/type validation block at the top of mrb_obj_alloc: a non-null
class must be a class, singleton class, module or environment, and the
requested tag must match its instance type except for the whitelisted
pairs. -/
def obj_alloc_check (s : MrbState) (ttype : Nat) (cls : Option ObjId) :
    Except String Unit :=
  match cls with
  | none => Except.ok ()
  | some cid =>
    match heapGet s cid with
    | none => Except.error ("allocation failure")
    | some csl =>
      if csl.tt = MRB_TT_CLASS ∨ csl.tt = MRB_TT_SCLASS ∨
         csl.tt = MRB_TT_MODULE ∨ csl.tt = MRB_TT_ENV then
        if ttype ≠ MRB_TT_SCLASS ∧ ttype ≠ MRB_TT_ICLASS ∧ ttype ≠ MRB_TT_ENV ∧
           ttype ≠ MRB_TT_BIGINT ∧ ttype ≠ csl.instance_tt ∧
           ¬(some cid = s.object_class ∧
             (ttype = MRB_TT_CPTR ∨ ttype = MRB_TT_CDATA ∨ ttype = MRB_TT_ISTRUCT)) then
          Except.error ("allocation failure of class")
        else Except.ok ()
      else Except.error ("allocation failure")

/-- mrb_obj_alloc from gc.c: validate the class/type pair, run the
threshold-triggered step, ensure arena headroom and a free slot, pop the
head of the first free page's free list, bump live, protect the new object
in the arena, zero the slot and install the tag, class and current white.
The model reports a corrupt free-list structure as an error (the C code
would dereference a null pointer there). -/
def mrb_obj_alloc (s : MrbState) (ttype : Nat) (cls : Option ObjId) :
    Except String (MrbState × ObjId) :=
  match obj_alloc_check s ttype cls with
  | Except.error e => Except.error e
  | Except.ok _ =>
    if ttype ≤ MRB_TT_FREE then Except.error ("allocation failure of type")
    else
      let s3 := obj_alloc_pre s
      match s3.free_heaps with
      | [] => Except.error ("inconsistent free page list")
      | pid :: fhRest =>
        match findPage s3.heaps pid with
        | none => Except.error ("inconsistent free page list")
        | some pg =>
          match pg.freelist with
          | [] => Except.error ("inconsistent free page list")
          | idx :: flRest =>
            let s4 :=
              { s3 with heaps := updatePage s3.heaps pid (fun q => { q with freelist := flRest }),
                        free_heaps := if flRest.isEmpty then fhRest else s3.free_heaps }
            let s5 := { s4 with live := s4.live + 1 }
            let s6 := gc_protect s5 (pid, idx)
            let newSlot : Slot :=
              { tt := ttype, c := cls, gc_color := s6.current_white_part,
                instance_tt := 0, children := [] }
            Except.ok (heapSet s6 (pid, idx) newSlot, (pid, idx))

/-- Result of an allocation request routed through mrb_realloc: success with
the block (none models a null result of a zero-length request), or the
raised out-of-memory condition. -/
inductive AllocResult where
  | ok (s : MrbState) (p : Option Unit)
  | nomem (s : MrbState)
deriving DecidableEq

/-- mrb_realloc_simple from gc.c, with the host allocator as an oracle
indexed by call number: on a null result for a non-zero length, provided a
heap exists and the collector is not sweeping, run one full GC and retry
once. Returns the final host result, the state, and the number of host
calls. -/
def mrb_realloc_simple (s : MrbState) (host : Nat → Option Unit) (len : Nat) :
    Option Unit × MrbState × Nat :=
  let p2 := host 0
  if p2 = none ∧ 0 < len ∧ s.heaps ≠ [] ∧ s.state ≠ GCPhase.sweep then
    (host 1, mrb_full_gc s, 2)
  else (p2, s, 1)

/-- mrb_realloc from gc.c: a zero-length request returns whatever the host
gave; a null result for a non-zero length sets the out_of_memory latch and
raises the pre-allocated exception; a successful allocation clears the
latch. -/
def mrb_realloc (s : MrbState) (host : Nat → Option Unit) (len : Nat) :
    AllocResult × Nat :=
  let r := mrb_realloc_simple s host len
  if len = 0 then (AllocResult.ok r.2.1 r.1, r.2.2)
  else
    match r.1 with
    | none => (AllocResult.nomem { r.2.1 with out_of_memory := true }, r.2.2)
    | some _ => (AllocResult.ok { r.2.1 with out_of_memory := false } (some ()), r.2.2)

/-- mrb_malloc from gc.c. -/
def mrb_malloc (s : MrbState) (host : Nat → Option Unit) (len : Nat) :
    AllocResult × Nat :=
  mrb_realloc s host len

/-- Result of mrb_calloc: success carries the returned block as a byte list
(none for the null return), failure is the raised out-of-memory condition. -/
inductive CallocResult where
  | ok (s : MrbState) (block : Option (List Nat))
  | nomem (s : MrbState)
deriving DecidableEq

/-- mrb_calloc from gc.c: only when both counts are positive and the product
cannot overflow size_t is the host allocator consulted; the successful block
is zero-filled (memset), and in every other case null is returned without
any host call. -/
def mrb_calloc (s : MrbState) (host : Nat → Option Unit) (nelem len : Nat) :
    CallocResult × Nat :=
  if 0 < nelem ∧ 0 < len ∧ nelem ≤ SIZE_MAX / len then
    let size := nelem * len
    match mrb_malloc s host size with
    | (AllocResult.ok s1 _, n) => (CallocResult.ok s1 (some (List.replicate size 0)), n)
    | (AllocResult.nomem s1, n) => (CallocResult.nomem s1, n)
  else (CallocResult.ok s none, 0)

/-- A free slot as a fresh page contains it. -/
def slotFree : Slot :=
  { tt := MRB_TT_FREE, c := none, gc_color := 0, instance_tt := 0, children := [] }

/-- A plain object painted with white A. -/
def slotWhiteA : Slot :=
  { tt := MRB_TT_OBJECT, c := none, gc_color := GC_WHITE_A, instance_tt := 0, children := [] }

/-- A plain object painted with white B. -/
def slotWhiteB : Slot :=
  { tt := MRB_TT_OBJECT, c := none, gc_color := GC_WHITE_B, instance_tt := 0, children := [] }

/-- A plain object painted black. -/
def slotBlack : Slot :=
  { tt := MRB_TT_OBJECT, c := none, gc_color := GC_BLACK, instance_tt := 0, children := [] }

/-- A plain object painted red. -/
def slotRed : Slot :=
  { tt := MRB_TT_OBJECT, c := none, gc_color := GC_RED, instance_tt := 0, children := [] }

/-- A baseline state: empty heap, the tunables at their gc.c defaults except
that generational mode is off and pages hold two slots. -/
def baseState : MrbState where
  heaps := []
  free_heaps := []
  sweeps := none
  state := GCPhase.root
  current_white_part := GC_WHITE_A
  gray_list := []
  atomic_gray_list := []
  live := 0
  live_after_mark := 0
  threshold := GC_STEP_SIZE
  oldgen_threshold := 0
  interval_ratio := 200
  step_ratio := 200
  generational := false
  full := false
  disabled := false
  iterating := false
  out_of_memory := false
  arena := []
  arena_capa := 100
  page_counter := 1
  heap_page_size := 2
  roots := []
  exc := none
  nomem_err := none
  stack_err := none
  object_class := none
  c_present := true

/-- A disabled collector caught in the middle of its mark phase. -/
def sC1 : MrbState :=
  { baseState with
    heap_page_size := 1,
    heaps := [{ pid := 0, old := false, freelist := [],
                objects := [{ slotWhiteA with gc_color := GC_GRAY }] }],
    live := 1, gray_list := [(0, 0)], state := GCPhase.mark, disabled := true }

/-- One page of one slot holding a single rooted white object. -/
def sC2 : MrbState :=
  { baseState with
    heap_page_size := 1,
    heaps := [{ pid := 0, old := false, freelist := [], objects := [slotWhiteA] }],
    live := 1, roots := [(0, 0)] }

/-- A minor-mode collector at rest in ROOT, holding a black object and a
white object. -/
def sC3 : MrbState :=
  { baseState with
    generational := true, full := false,
    heaps := [{ pid := 0, old := false, freelist := [], objects := [slotBlack, slotWhiteA] }],
    live := 2 }

/-- The state after the mutator stores the white object into a field of the
black one, with the write barrier: the white object is now gray-listed. -/
def sC3b : MrbState := mrb_field_write_barrier sC3 (0, 0) (some (0, 1))

/-- A generational collector that has just finished sweeping a major cycle,
with 150 objects surviving the mark. -/
def sC5 : MrbState :=
  { baseState with
    generational := true, full := true, state := GCPhase.sweep,
    live := 150, live_after_mark := 150 }

/-- A disabled generational collector. -/
def sC6 : MrbState :=
  { baseState with disabled := true, generational := true }

/-- A collector in the middle of its sweep phase with one (fully free) heap
page. -/
def sC7 : MrbState :=
  { baseState with
    state := GCPhase.sweep,
    heaps := [{ pid := 0, old := false, freelist := [1, 0],
                objects := [slotFree, slotFree] }],
    free_heaps := [0] }

/-- A host allocator that always fails. -/
def hostNone : Nat → Option Unit := fun _ => none

/-- A host allocator that always succeeds. -/
def hostSome : Nat → Option Unit := fun _ => some ()

/-- A collector over threshold, mid-sweep, with one dead white object about
to be reclaimed by the allocation-triggered step. -/
def sC8 : MrbState :=
  { baseState with
    state := GCPhase.sweep,
    heaps := [{ pid := 0, old := false, freelist := [1],
                objects := [slotWhiteB, slotFree] }],
    free_heaps := [0],
    live := 5, live_after_mark := 5, threshold := 3 }

/-- A state whose first free page has a two-entry free list and whose
threshold has not been reached. -/
def sW8 : MrbState :=
  { baseState with
    heaps := [{ pid := 0, old := false, freelist := [1, 0],
                objects := [slotFree, slotFree] }],
    free_heaps := [0] }

/-- A marking-phase state holding a black object and a white object, used to
exercise the write barrier and the marker. -/
def sW4 : MrbState :=
  { baseState with
    state := GCPhase.mark,
    current_white_part := GC_WHITE_B,
    heaps := [{ pid := 0, old := false, freelist := [],
                objects := [slotBlack, slotWhiteB] }],
    live := 2 }

/-- The live count of a successful allocation's result. -/
def allocResultLive (r : Except String (MrbState × ObjId)) : Option Nat :=
  match r with
  | Except.ok p => some p.1.live
  | Except.error _ => none

/-- The payload of a successful generational-mode-set result. -/
def genSetOk (r : Except String (MrbState × Bool)) : Option (MrbState × Bool) :=
  match r with
  | Except.ok p => some p
  | Except.error _ => none

/-- The slot header mrb_obj_alloc leaves behind: the requested tag and
class, every other field zeroed, painted with the given color. -/
def freshSlot (ttype : Nat) (cls : Option ObjId) (col : Nat) : Slot :=
  { tt := ttype, c := cls, gc_color := col, instance_tt := 0, children := [] }

/-- A rooted white object and a red object, ready for marking. -/
def sW9 : MrbState :=
  { baseState with
    heaps := [{ pid := 0, old := false, freelist := [],
                objects := [slotWhiteA, slotRed] }],
    live := 2, roots := [(0, 0)] }

/-- A collector at rest in MARK with nothing gray, about to enter sweep. -/
def sW3 : MrbState := { baseState with state := GCPhase.mark }

/-- A resting collector with one free page, for the allocation retry path. -/
def sW7 : MrbState :=
  { baseState with
    heaps := [{ pid := 0, old := false, freelist := [1, 0],
                objects := [slotFree, slotFree] }],
    free_heaps := [0] }

/-- The page of sW8. -/
def pgW8 : Page :=
  { pid := 0, old := false, freelist := [1, 0], objects := [slotFree, slotFree] }

theorem countP_set_balance (p : Slot → Bool) (l : List Slot) (i : Nat) (a b : Slot)
    (h : l.get? i = some a) :
    (l.set i b).countP p + (if p a then 1 else 0) =
      l.countP p + (if p b then 1 else 0) := by
  induction l generalizing i with
  | nil => simp at h
  | cons x xs ih =>
    cases i with
    | zero =>
      simp only [List.get?] at h
      cases h
      simp [List.set, List.countP_cons]
      omega
    | succ n =>
      simp only [List.get?] at h
      have := ih n h
      simp [List.set, List.countP_cons]
      omega

theorem get?_set_self (l : List Slot) (i : Nat) (a : Slot) (h : i < l.length) :
    (l.set i a).get? i = some a := by
  induction l generalizing i with
  | nil => simp at h
  | cons x xs ih =>
    cases i with
    | zero => rfl
    | succ n =>
      simp only [List.set, List.get?]
      exact ih n (by simpa using h)

theorem get?_set_ne (l : List Slot) (i j : Nat) (a : Slot) (h : i ≠ j) :
    (l.set i a).get? j = l.get? j := by
  induction l generalizing i j with
  | nil => simp
  | cons x xs ih =>
    cases i with
    | zero =>
      cases j with
      | zero => exact absurd rfl h
      | succ m => rfl
    | succ n =>
      cases j with
      | zero => rfl
      | succ m =>
        simp only [List.set, List.get?]
        exact ih n m (fun e => h (by rw [e]))

theorem findPage_updatePage_self (l : List Page) (pid : Nat) (f : Page → Page)
    (hf : ∀ pg, (f pg).pid = pg.pid) :
    findPage (updatePage l pid f) pid = Option.map f (findPage l pid) := by
  induction l with
  | nil => rfl
  | cons pg rest ih =>
    by_cases h : pg.pid = pid
    · simp [updatePage, findPage, List.find?, h, hf]
    · simp only [updatePage, if_neg h]
      simp only [findPage, List.find?] at ih ⊢
      have hb : (pg.pid == pid) = false := by simp [h]
      simp [hb, ih]

theorem findPage_updatePage_ne (l : List Page) (pid pid2 : Nat) (f : Page → Page)
    (hf : ∀ pg, (f pg).pid = pg.pid) (h2 : pid2 ≠ pid) :
    findPage (updatePage l pid f) pid2 = findPage l pid2 := by
  induction l with
  | nil => rfl
  | cons pg rest ih =>
    by_cases h : pg.pid = pid
    · have hb : ((f pg).pid == pid2) = false := by
        rw [hf]
        simp [h, Ne.symm h2]
      have hb2 : (pg.pid == pid2) = false := by simp [h, Ne.symm h2]
      simp [updatePage, if_pos h, findPage, List.find?, hb, hb2]
    · simp only [updatePage, if_neg h]
      simp only [findPage, List.find?] at ih ⊢
      cases hb : (pg.pid == pid2) <;> simp [hb, ih]

theorem whiteSum_updatePage (l : List Page) (pid : Nat) (f : Page → Page) (pg : Page)
    (h : findPage l pid = some pg) :
    ((updatePage l pid f).map whiteCountPage).sum + whiteCountPage pg =
      (l.map whiteCountPage).sum + whiteCountPage (f pg) := by
  induction l with
  | nil => simp [findPage] at h
  | cons q rest ih =>
    by_cases hq : q.pid = pid
    · have hb : (q.pid == pid) = true := by simp [hq]
      have hqe : q = pg := by
        simp only [findPage, List.find?, hb] at h
        exact Option.some.inj h
      subst hqe
      simp [updatePage, hq]
      omega
    · have hb : (q.pid == pid) = false := by simp [hq]
      simp only [findPage, List.find?, hb] at h
      have := ih h
      simp only [updatePage, if_neg hq, List.map, List.sum_cons]
      omega

theorem whiteCount_heapSet (s : MrbState) (o : ObjId) (sl b : Slot)
    (h : heapGet s o = some sl) :
    whiteCount (heapSet s o b) + (if is_white sl then 1 else 0) =
      whiteCount s + (if is_white b then 1 else 0) := by
  unfold heapGet at h
  cases hp : findPage s.heaps o.1 with
  | none => rw [hp] at h; simp at h
  | some pg =>
    rw [hp] at h
    simp only [Option.some_bind] at h
    have hpage := whiteSum_updatePage s.heaps o.1 (setSlotInPage o.2 b) pg hp
    have hcount := countP_set_balance is_white pg.objects o.2 sl b h
    have hset : whiteCount (heapSet s o b) =
        ((updatePage s.heaps o.1 (setSlotInPage o.2 b)).map whiteCountPage).sum := rfl
    have hwc : whiteCount s = (s.heaps.map whiteCountPage).sum := rfl
    have hfpg : whiteCountPage (setSlotInPage o.2 b pg) =
        (pg.objects.set o.2 b).countP is_white := rfl
    have hpg2 : whiteCountPage pg = pg.objects.countP is_white := rfl
    rw [hset, hwc]
    rw [hfpg, hpg2] at hpage
    omega

theorem whiteCount_gray_list_irrel (s : MrbState) (l : List ObjId) :
    whiteCount { s with gray_list := l } = whiteCount s := rfl

theorem paint_color_eq_heapSet (s : MrbState) (o : ObjId) (sl : Slot) (col : Nat)
    (h : heapGet s o = some sl) :
    paint_color s o col = heapSet s o { sl with gc_color := col } := by
  unfold paint_color
  rw [h]

theorem markFuel_add_gray_le (s : MrbState) (o : ObjId) (sl : Slot)
    (h : heapGet s o = some sl) (hw : is_white sl = true) :
    markFuel (add_gray_list s o) ≤ markFuel s := by
  have hbal := whiteCount_heapSet s o sl { sl with gc_color := GC_GRAY } h
  have hnw : is_white { sl with gc_color := GC_GRAY } = false := by
    show (GC_GRAY &&& GC_WHITES != 0) = false
    decide
  rw [hw, hnw] at hbal
  have h1 : markFuel (add_gray_list s o) =
      whiteCount (heapSet s o { sl with gc_color := GC_GRAY }) + (s.gray_list.length + 1) := by
    unfold add_gray_list markFuel
    rw [paint_color_eq_heapSet s o sl GC_GRAY h]
    rfl
  have h2 : markFuel s = whiteCount s + s.gray_list.length := rfl
  simp at hbal
  omega

theorem markFuel_gc_mark_le (s : MrbState) (o : Option ObjId) :
    markFuel (mrb_gc_mark s o) ≤ markFuel s := by
  cases o with
  | none => simp [mrb_gc_mark]
  | some o =>
    cases h : heapGet s o with
    | none => simp [mrb_gc_mark, h]
    | some sl =>
      cases hw : is_white sl with
      | false => simp [mrb_gc_mark, h, hw]
      | true =>
        cases hr : is_red sl with
        | true => simp [mrb_gc_mark, h, hw, hr]
        | false =>
          have he : mrb_gc_mark s (some o) = add_gray_list s o := by
            simp [mrb_gc_mark, h, hw, hr]
          rw [he]
          exact markFuel_add_gray_le s o sl h hw

theorem markFuel_mark_list_le (l : List ObjId) (s : MrbState) :
    markFuel (mark_list s l) ≤ markFuel s := by
  induction l generalizing s with
  | nil => exact Nat.le_refl _
  | cons o rest ih =>
    unfold mark_list at ih ⊢
    simp only [List.foldl_cons]
    exact Nat.le_trans (ih (mrb_gc_mark s (some o))) (markFuel_gc_mark_le s (some o))

theorem markFuel_paint_le (s : MrbState) (o : ObjId) (col : Nat)
    (hc : col &&& GC_WHITES = 0) :
    markFuel (paint_color s o col) ≤ markFuel s := by
  cases h : heapGet s o with
  | none => simp [paint_color, h]
  | some sl =>
    have hbal := whiteCount_heapSet s o sl { sl with gc_color := col } h
    have hnw : is_white { sl with gc_color := col } = false := by
      simp [is_white, hc]
    rw [hnw] at hbal
    have h1 : markFuel (paint_color s o col) =
        whiteCount (heapSet s o { sl with gc_color := col }) + s.gray_list.length := by
      rw [paint_color_eq_heapSet s o sl col h]
      rfl
    have h2 : markFuel s = whiteCount s + s.gray_list.length := rfl
    cases hw : is_white sl <;> rw [hw] at hbal <;> simp at hbal <;> omega

theorem markFuel_children_le (s : MrbState) (o : ObjId) :
    markFuel (gc_mark_children s o).1 ≤ markFuel s := by
  cases h : heapGet s o with
  | none => simp [gc_mark_children, h]
  | some sl =>
    have he : (gc_mark_children s o).1 =
        mark_list (mrb_gc_mark (paint_color s o GC_BLACK) sl.c) sl.children := by
      simp [gc_mark_children, h]
    rw [he]
    have h1 : markFuel (paint_color s o GC_BLACK) ≤ markFuel s :=
      markFuel_paint_le s o GC_BLACK (by decide)
    have h2 := markFuel_gc_mark_le (paint_color s o GC_BLACK) sl.c
    have h3 := markFuel_mark_list_le sl.children
      (mrb_gc_mark (paint_color s o GC_BLACK) sl.c)
    omega

theorem markFuel_pop_lt (s : MrbState) (o : ObjId) (rest : List ObjId)
    (h : s.gray_list = o :: rest) :
    markFuel (gc_mark_children { s with gray_list := rest } o).1 < markFuel s := by
  have h1 := markFuel_children_le { s with gray_list := rest } o
  have h2 : markFuel { s with gray_list := rest } = whiteCount s + rest.length := rfl
  have h3 : markFuel s = whiteCount s + s.gray_list.length := rfl
  rw [h] at h3
  simp only [List.length_cons] at h3
  omega

theorem gray_drain_go_empties (fuel : Nat) :
    ∀ s : MrbState, markFuel s ≤ fuel → (gc_mark_gray_list_go fuel s).gray_list = [] := by
  induction fuel with
  | zero =>
    intro s h
    have hl : s.gray_list.length = 0 := by
      unfold markFuel at h
      omega
    simpa [gc_mark_gray_list_go] using List.length_eq_zero.mp hl
  | succ n ih =>
    intro s h
    cases hg : s.gray_list with
    | nil => simp [gc_mark_gray_list_go, hg]
    | cons o rest =>
      have he : gc_mark_gray_list_go (n + 1) s =
          gc_mark_gray_list_go n (gc_mark_children { s with gray_list := rest } o).1 := by
        simp [gc_mark_gray_list_go, hg]
      rw [he]
      have := markFuel_pop_lt s o rest hg
      exact ih _ (by omega)

theorem gray_drain_empties (s : MrbState) : (gc_mark_gray_list s).gray_list = [] :=
  gray_drain_go_empties (markFuel s) s (Nat.le_refl _)

theorem atomic_paint (s : MrbState) (o : ObjId) (col : Nat) :
    (paint_color s o col).atomic_gray_list = s.atomic_gray_list := by
  cases h : heapGet s o with
  | none => simp [paint_color, h]
  | some sl => rw [paint_color_eq_heapSet s o sl col h]; rfl

theorem atomic_gc_mark (s : MrbState) (o : Option ObjId) :
    (mrb_gc_mark s o).atomic_gray_list = s.atomic_gray_list := by
  cases o with
  | none => rfl
  | some o =>
    cases h : heapGet s o with
    | none => simp [mrb_gc_mark, h]
    | some sl =>
      cases hw : is_white sl with
      | false => simp [mrb_gc_mark, h, hw]
      | true =>
        cases hr : is_red sl with
        | true => simp [mrb_gc_mark, h, hw, hr]
        | false =>
          have he : mrb_gc_mark s (some o) = add_gray_list s o := by
            simp [mrb_gc_mark, h, hw, hr]
          rw [he]
          unfold add_gray_list
          simp [atomic_paint]

theorem atomic_mark_list (l : List ObjId) (s : MrbState) :
    (mark_list s l).atomic_gray_list = s.atomic_gray_list := by
  induction l generalizing s with
  | nil => rfl
  | cons o rest ih =>
    unfold mark_list at ih ⊢
    simp only [List.foldl_cons]
    rw [ih, atomic_gc_mark]

theorem atomic_children (s : MrbState) (o : ObjId) :
    (gc_mark_children s o).1.atomic_gray_list = s.atomic_gray_list := by
  cases h : heapGet s o with
  | none => simp [gc_mark_children, h]
  | some sl =>
    have he : (gc_mark_children s o).1 =
        mark_list (mrb_gc_mark (paint_color s o GC_BLACK) sl.c) sl.children := by
      simp [gc_mark_children, h]
    rw [he, atomic_mark_list, atomic_gc_mark, atomic_paint]

theorem atomic_gray_drain_go (fuel : Nat) :
    ∀ s : MrbState,
      (gc_mark_gray_list_go fuel s).atomic_gray_list = s.atomic_gray_list := by
  induction fuel with
  | zero => intro s; rfl
  | succ n ih =>
    intro s
    cases hg : s.gray_list with
    | nil => simp [gc_mark_gray_list_go, hg]
    | cons o rest =>
      have he : gc_mark_gray_list_go (n + 1) s =
          gc_mark_gray_list_go n (gc_mark_children { s with gray_list := rest } o).1 := by
        simp [gc_mark_gray_list_go, hg]
      rw [he, ih, atomic_children]

theorem atomic_gray_drain (s : MrbState) :
    (gc_mark_gray_list s).atomic_gray_list = s.atomic_gray_list :=
  atomic_gray_drain_go (markFuel s) s

theorem final_marking_empties (s : MrbState) :
    (final_marking_phase s).gray_list = [] ∧
      (final_marking_phase s).atomic_gray_list = [] := by
  unfold final_marking_phase
  constructor
  · exact gray_drain_empties _
  · rw [atomic_gray_drain]

theorem genfull_paint (s : MrbState) (o : ObjId) (col : Nat) :
    (paint_color s o col).generational = s.generational ∧
      (paint_color s o col).full = s.full := by
  cases h : heapGet s o with
  | none => simp [paint_color, h]
  | some sl => rw [paint_color_eq_heapSet s o sl col h]; exact ⟨rfl, rfl⟩

theorem genfull_gc_mark (s : MrbState) (o : Option ObjId) :
    (mrb_gc_mark s o).generational = s.generational ∧
      (mrb_gc_mark s o).full = s.full := by
  cases o with
  | none => exact ⟨rfl, rfl⟩
  | some o =>
    cases h : heapGet s o with
    | none => simp [mrb_gc_mark, h]
    | some sl =>
      cases hw : is_white sl with
      | false => simp [mrb_gc_mark, h, hw]
      | true =>
        cases hr : is_red sl with
        | true => simp [mrb_gc_mark, h, hw, hr]
        | false =>
          have he : mrb_gc_mark s (some o) = add_gray_list s o := by
            simp [mrb_gc_mark, h, hw, hr]
          rw [he]
          exact genfull_paint s o GC_GRAY

theorem genfull_mark_list (l : List ObjId) (s : MrbState) :
    (mark_list s l).generational = s.generational ∧ (mark_list s l).full = s.full := by
  induction l generalizing s with
  | nil => exact ⟨rfl, rfl⟩
  | cons o rest ih =>
    unfold mark_list at ih ⊢
    simp only [List.foldl_cons]
    have h1 := ih (mrb_gc_mark s (some o))
    have h2 := genfull_gc_mark s (some o)
    exact ⟨h1.1.trans h2.1, h1.2.trans h2.2⟩

theorem genfull_children (s : MrbState) (o : ObjId) :
    (gc_mark_children s o).1.generational = s.generational ∧
      (gc_mark_children s o).1.full = s.full := by
  cases h : heapGet s o with
  | none => simp [gc_mark_children, h]
  | some sl =>
    have he : (gc_mark_children s o).1 =
        mark_list (mrb_gc_mark (paint_color s o GC_BLACK) sl.c) sl.children := by
      simp [gc_mark_children, h]
    rw [he]
    have h1 := genfull_mark_list sl.children (mrb_gc_mark (paint_color s o GC_BLACK) sl.c)
    have h2 := genfull_gc_mark (paint_color s o GC_BLACK) sl.c
    have h3 := genfull_paint s o GC_BLACK
    exact ⟨(h1.1.trans h2.1).trans h3.1, (h1.2.trans h2.2).trans h3.2⟩

theorem genfull_marking_go (fuel : Nat) :
    ∀ (s : MrbState) (limit tried : Nat),
      (incremental_marking_go fuel s limit tried).1.generational = s.generational ∧
        (incremental_marking_go fuel s limit tried).1.full = s.full := by
  induction fuel with
  | zero => intro s limit tried; exact ⟨rfl, rfl⟩
  | succ n ih =>
    intro s limit tried
    cases hg : s.gray_list with
    | nil => simp [incremental_marking_go, hg]
    | cons o rest =>
      by_cases hl : tried < limit
      · have he : incremental_marking_go (n + 1) s limit tried =
            incremental_marking_go n (gc_mark_children { s with gray_list := rest } o).1
              limit (tried + (gc_mark_children { s with gray_list := rest } o).2) := by
          simp [incremental_marking_go, hg, hl]
        rw [he]
        have h1 := ih (gc_mark_children { s with gray_list := rest } o).1 limit
          (tried + (gc_mark_children { s with gray_list := rest } o).2)
        have h2 := genfull_children { s with gray_list := rest } o
        exact ⟨h1.1.trans h2.1, h1.2.trans h2.2⟩
      · simp [incremental_marking_go, hg, hl]

theorem genfull_marking_phase (s : MrbState) (limit : Nat) :
    (incremental_marking_phase s limit).1.generational = s.generational ∧
      (incremental_marking_phase s limit).1.full = s.full :=
  genfull_marking_go (markFuel s) s limit 0

theorem genfull_clear_error (s : MrbState) (o : Option ObjId) :
    (clear_error_object s o).generational = s.generational ∧
      (clear_error_object s o).full = s.full := by
  cases o with
  | none => exact ⟨rfl, rfl⟩
  | some o =>
    cases h : heapGet s o with
    | none => simp [clear_error_object, h]
    | some sl =>
      cases hw : is_white sl with
      | false => simp [clear_error_object, h, hw]
      | true =>
        have he : clear_error_object s (some o) =
            mrb_gc_mark (heapSet s o { sl with gc_color := GC_BLACK, children := [] }) sl.c := by
          simp [clear_error_object, h, hw]
        rw [he]
        have h1 := genfull_gc_mark (heapSet s o { sl with gc_color := GC_BLACK, children := [] }) sl.c
        exact ⟨h1.1, h1.2⟩

theorem genfull_gray_drain_go (fuel : Nat) :
    ∀ s : MrbState,
      (gc_mark_gray_list_go fuel s).generational = s.generational ∧
        (gc_mark_gray_list_go fuel s).full = s.full := by
  induction fuel with
  | zero => intro s; exact ⟨rfl, rfl⟩
  | succ n ih =>
    intro s
    cases hg : s.gray_list with
    | nil => simp [gc_mark_gray_list_go, hg]
    | cons o rest =>
      have he : gc_mark_gray_list_go (n + 1) s =
          gc_mark_gray_list_go n (gc_mark_children { s with gray_list := rest } o).1 := by
        simp [gc_mark_gray_list_go, hg]
      rw [he]
      have h1 := ih (gc_mark_children { s with gray_list := rest } o).1
      have h2 := genfull_children { s with gray_list := rest } o
      exact ⟨h1.1.trans h2.1, h1.2.trans h2.2⟩

theorem genfull_root_scan (s : MrbState) :
    (root_scan_phase s).generational = s.generational ∧
      (root_scan_phase s).full = s.full := by
  have body : ∀ t : MrbState,
      (mrb_gc_mark (mark_list (mark_list t t.roots) (mark_list t t.roots).arena)
        (mark_list (mark_list t t.roots) (mark_list t t.roots).arena).exc).generational =
          t.generational ∧
      (mrb_gc_mark (mark_list (mark_list t t.roots) (mark_list t t.roots).arena)
        (mark_list (mark_list t t.roots) (mark_list t t.roots).arena).exc).full = t.full := by
    intro t
    have h1 := genfull_mark_list t.roots t
    have h2 := genfull_mark_list (mark_list t t.roots).arena (mark_list t t.roots)
    have h3 := genfull_gc_mark (mark_list (mark_list t t.roots) (mark_list t t.roots).arena)
      (mark_list (mark_list t t.roots) (mark_list t t.roots).arena).exc
    exact ⟨(h3.1.trans h2.1).trans h1.1, (h3.2.trans h2.2).trans h1.2⟩
  unfold root_scan_phase
  cases hm : is_minor_gc s with
  | true =>
    simp only [hm, Bool.not_true, Bool.false_eq_true, if_false]
    exact body s
  | false =>
    simp only [hm, Bool.not_false, if_true]
    exact body { s with gray_list := [], atomic_gray_list := [] }

theorem genfull_final_marking (s : MrbState) :
    (final_marking_phase s).generational = s.generational ∧
      (final_marking_phase s).full = s.full := by
  unfold final_marking_phase
  set s1 := mark_list s s.arena with hs1
  set s2 := mark_list s1 s1.roots with hs2
  set s3 := mrb_gc_mark s2 s2.exc with hs3
  set s4 := clear_error_object s3 s3.nomem_err with hs4
  set s5 := clear_error_object s4 s4.stack_err with hs5
  set s6 := gc_mark_gray_list s5 with hs6
  have h1 := genfull_mark_list s.arena s
  have h2 := genfull_mark_list s1.roots s1
  have h3 := genfull_gc_mark s2 s2.exc
  have h4 := genfull_clear_error s3 s3.nomem_err
  have h5 := genfull_clear_error s4 s4.stack_err
  have h6 : s6.generational = s5.generational ∧ s6.full = s5.full := by
    rw [hs6]
    exact genfull_gray_drain_go (markFuel s5) s5
  set s7 := { s6 with gray_list := s6.atomic_gray_list, atomic_gray_list := ([] : List ObjId) }
  have h7 : s7.generational = s6.generational ∧ s7.full = s6.full := ⟨rfl, rfl⟩
  have h8 : (gc_mark_gray_list s7).generational = s7.generational ∧
      (gc_mark_gray_list s7).full = s7.full :=
    genfull_gray_drain_go (markFuel s7) s7
  refine ⟨?_, ?_⟩
  · rw [h8.1, h7.1, h6.1, h5.1, h4.1, h3.1, h2.1, h1.1]
  · rw [h8.2, h7.2, h6.2, h5.2, h4.2, h3.2, h2.2, h1.2]

theorem genfull_sweep_phase (s : MrbState) (limit : Nat) :
    (incremental_sweep_phase s limit).1.generational = s.generational ∧
      (incremental_sweep_phase s limit).1.full = s.full := by
  unfold incremental_sweep_phase
  exact ⟨rfl, rfl⟩

theorem genfull_incremental_gc (s : MrbState) (limit : Nat) :
    (incremental_gc s limit).1.generational = s.generational ∧
      (incremental_gc s limit).1.full = s.full := by
  unfold incremental_gc
  cases hs : s.state with
  | root =>
    have h1 := genfull_root_scan s
    exact ⟨h1.1, h1.2⟩
  | mark =>
    by_cases hg : s.gray_list.isEmpty
    · rw [if_pos hg]
      have h1 := genfull_final_marking s
      exact ⟨h1.1, h1.2⟩
    · rw [if_neg hg]
      exact genfull_marking_phase s limit
  | sweep =>
    have h1 := genfull_sweep_phase s limit
    by_cases h2 : (incremental_sweep_phase s limit).2 = 0
    · rw [if_pos h2]
      exact ⟨h1.1, h1.2⟩
    · rw [if_neg h2]
      exact ⟨h1.1, h1.2⟩

theorem genfull_step_go (fuel : Nat) :
    ∀ (s : MrbState) (limit result : Nat),
      (incremental_gc_step_go fuel s limit result).generational = s.generational ∧
        (incremental_gc_step_go fuel s limit result).full = s.full := by
  induction fuel with
  | zero => intro s limit result; exact ⟨rfl, rfl⟩
  | succ n ih =>
    intro s limit result
    by_cases hl : result < limit
    · by_cases hr : (incremental_gc s limit).1.state = GCPhase.root
      · have he : incremental_gc_step_go (n + 1) s limit result = (incremental_gc s limit).1 := by
          simp [incremental_gc_step_go, hl, hr]
        rw [he]
        exact genfull_incremental_gc s limit
      · have he : incremental_gc_step_go (n + 1) s limit result =
            incremental_gc_step_go n (incremental_gc s limit).1 limit
              (result + (incremental_gc s limit).2) := by
          simp [incremental_gc_step_go, hl, hr]
        rw [he]
        have h1 := ih (incremental_gc s limit).1 limit (result + (incremental_gc s limit).2)
        have h2 := genfull_incremental_gc s limit
        exact ⟨h1.1.trans h2.1, h1.2.trans h2.2⟩
    · simp [incremental_gc_step_go, hl]

theorem genfull_step (s : MrbState) :
    (incremental_gc_step s).generational = s.generational ∧
      (incremental_gc_step s).full = s.full := by
  unfold incremental_gc_step
  exact genfull_step_go (finish_fuel s) s ((GC_STEP_SIZE / 100) * s.step_ratio) 0

theorem setSlotInPage_pid (i : Nat) (sl : Slot) (pg : Page) :
    (setSlotInPage i sl pg).pid = pg.pid := rfl

theorem heapGet_heapSet_self (s : MrbState) (o : ObjId) (b : Slot) (pg : Page)
    (hp : findPage s.heaps o.1 = some pg) (hi : o.2 < pg.objects.length) :
    heapGet (heapSet s o b) o = some b := by
  unfold heapGet heapSet
  simp only
  rw [findPage_updatePage_self s.heaps o.1 (setSlotInPage o.2 b)
    (fun q => rfl), hp]
  simp only [Option.map_some', Option.some_bind]
  exact get?_set_self pg.objects o.2 b hi

theorem heapGet_heapSet_ne (s : MrbState) (o v : ObjId) (b : Slot) (h : o ≠ v) :
    heapGet (heapSet s o b) v = heapGet s v := by
  unfold heapGet heapSet
  simp only
  by_cases h1 : v.1 = o.1
  · rw [h1]
    rw [findPage_updatePage_self s.heaps o.1 (setSlotInPage o.2 b) (fun q => rfl)]
    cases hp : findPage s.heaps o.1 with
    | none => rfl
    | some pg =>
      simp only [Option.map_some', Option.some_bind]
      have h2 : o.2 ≠ v.2 := by
        intro h2
        exact h (Prod.ext (h1.symm) h2)
      exact get?_set_ne pg.objects o.2 v.2 b h2
  · rw [findPage_updatePage_ne s.heaps o.1 v.1 (setSlotInPage o.2 b) (fun q => rfl) h1]

theorem gray_list_paint (s : MrbState) (o : ObjId) (col : Nat) :
    (paint_color s o col).gray_list = s.gray_list := by
  cases h : heapGet s o with
  | none => simp [paint_color, h]
  | some sl =>
    rw [paint_color_eq_heapSet s o sl col h]
    rfl

/-- C1: the claim says that with the disabled flag set, automatic scheduling
is suppressed but an explicit full GC still runs a complete cycle. The code
disagrees on the second half -- mrb_full_gc returns immediately when
disabled -- so the amended statement proved here is: when disabled, both
mrb_full_gc and mrb_incremental_gc leave the state entirely unchanged, and
in particular an in-flight cycle is never interrupted. -/
theorem disabled_suppresses_all_gc (s : MrbState) (h : s.disabled = true) :
    mrb_full_gc s = s ∧ mrb_incremental_gc s = s := by
  constructor
  · unfold mrb_full_gc
    rw [h]
    cases hc : s.c_present <;> simp
  · unfold mrb_incremental_gc
    rw [h]
    simp

/-- C1 witness: the amended theorem applied to a concrete disabled state. -/
theorem disabled_suppresses_all_gc_witness :
    mrb_full_gc sC1 = sC1 ∧ mrb_incremental_gc sC1 = sC1 :=
  disabled_suppresses_all_gc sC1 rfl

/-- C1 counterexample: a disabled collector frozen in the middle of its mark
phase; mrb_full_gc returns it unchanged, still in MARK, so no complete
collection cycle runs, contradicting the claim as stated. -/
theorem disabled_full_gc_counterexample :
    sC1.disabled = true ∧ sC1.state = GCPhase.mark ∧ mrb_full_gc sC1 = sC1 ∧
      (mrb_full_gc sC1).state ≠ GCPhase.root := by
  refine ⟨rfl, rfl, rfl, ?_⟩
  decide

/-- C6: the claim says every generational_mode= call while disabled or
iterating raises, for any requested value. The setter only reaches
change_gen_gc_mode (and hence the raise) when the requested value differs
from the current mode, so the amended statement proved here is: while
disabled or iterating, a request that changes the mode raises the runtime
error, and a request equal to the current mode returns successfully. -/
theorem gen_mode_set_error_condition (s : MrbState) (b : Bool)
    (h : s.disabled = true ∨ s.iterating = true) :
    (s.generational ≠ b →
      gc_generational_mode_set s b =
        Except.error ("generational mode changed when GC disabled")) ∧
    (s.generational = b → gc_generational_mode_set s b = Except.ok (s, b)) := by
  have hcond : (s.disabled || s.iterating) = true := by
    rcases h with h | h <;> simp [h]
  constructor
  · intro hne
    have hcg : change_gen_gc_mode s b =
        Except.error ("generational mode changed when GC disabled") := by
      unfold change_gen_gc_mode
      rw [hcond]
      simp
    unfold gc_generational_mode_set
    rw [if_pos hne, hcg]
  · intro heq
    unfold gc_generational_mode_set
    rw [if_neg (by simp [heq])]

/-- C6 witness: the amended theorem applied to a disabled generational
collector asked to leave generational mode. -/
theorem gen_mode_set_error_condition_witness :
    gc_generational_mode_set sC6 false =
      Except.error ("generational mode changed when GC disabled") :=
  (gen_mode_set_error_condition sC6 false (Or.inl rfl)).1 (by decide)

/-- C6 counterexample: a disabled generational collector asked to set
generational mode to its current value returns successfully instead of
raising, contradicting the claim as stated (quantified over any requested
value). -/
theorem gen_mode_set_no_error_counterexample :
    sC6.disabled = true ∧ sC6.generational = true ∧
      gc_generational_mode_set sC6 true = Except.ok (sC6, true) :=
  ⟨rfl, rfl, rfl⟩

/-- C9: mrb_gc_mark pushes the object onto the gray list, painting it gray,
exactly when the pointer is non-null, the object has a white bit set, and
it is not red; every other call leaves the state unchanged, and in
particular a red object is never enqueued. -/
theorem gc_mark_spec (s : MrbState) (o : ObjId) (sl : Slot)
    (h : heapGet s o = some sl) :
    mrb_gc_mark s none = s ∧
    (is_white sl = true → is_red sl = false →
      mrb_gc_mark s (some o) = add_gray_list s o ∧
      (mrb_gc_mark s (some o)).gray_list = o :: s.gray_list) ∧
    (is_white sl = false → mrb_gc_mark s (some o) = s) ∧
    (is_red sl = true → mrb_gc_mark s (some o) = s) := by
  refine ⟨rfl, ?_, ?_, ?_⟩
  · intro hw hr
    have he : mrb_gc_mark s (some o) = add_gray_list s o := by
      simp [mrb_gc_mark, h, hw, hr]
    refine ⟨he, ?_⟩
    rw [he]
    show (o :: (paint_color s o GC_GRAY).gray_list) = o :: s.gray_list
    rw [gray_list_paint]
  · intro hw
    simp [mrb_gc_mark, h, hw]
  · intro hr
    have hcol : sl.gc_color = GC_RED := by
      have hb := hr
      unfold is_red at hb
      simpa using hb
    have hw : is_white sl = true := by
      unfold is_white
      rw [hcol]
      decide
    simp [mrb_gc_mark, h, hw, hr]

/-- C9 witness: the theorem applied to a concrete white object; the call
pushes it onto the gray list. -/
theorem gc_mark_spec_witness :
    mrb_gc_mark sW9 (some (0, 0)) = add_gray_list sW9 (0, 0) ∧
      (mrb_gc_mark sW9 (some (0, 0))).gray_list = (0, 0) :: sW9.gray_list :=
  ((gc_mark_spec sW9 (0, 0) slotWhiteA rfl).2.1) rfl rfl

/-- C4: the field write barrier is a no-op when value is null, when obj is
not black, when value has no white bit, or when value is red; otherwise in
generational mode or the mark phase it paints value gray and pushes it onto
the gray list, and otherwise (the sweep phase) it repaints obj with the
current white and leaves value untouched. -/
theorem field_write_barrier_spec (s : MrbState) (obj v : ObjId) (so sv : Slot)
    (ho : heapGet s obj = some so) (hv : heapGet s v = some sv) :
    mrb_field_write_barrier s obj none = s ∧
    (is_black so = false → mrb_field_write_barrier s obj (some v) = s) ∧
    (is_white sv = false → mrb_field_write_barrier s obj (some v) = s) ∧
    (is_red sv = true → mrb_field_write_barrier s obj (some v) = s) ∧
    (is_black so = true → is_white sv = true → is_red sv = false →
      ((s.generational = true ∨ s.state = GCPhase.mark) →
        mrb_field_write_barrier s obj (some v) = add_gray_list s v ∧
        (mrb_field_write_barrier s obj (some v)).gray_list = v :: s.gray_list) ∧
      (s.generational = false → s.state ≠ GCPhase.mark →
        mrb_field_write_barrier s obj (some v) =
          paint_color s obj s.current_white_part ∧
        heapGet (mrb_field_write_barrier s obj (some v)) v = some sv)) := by
  refine ⟨rfl, ?_, ?_, ?_, ?_⟩
  · intro hb
    simp [mrb_field_write_barrier, ho, hv, hb]
  · intro hw
    cases hb : is_black so with
    | false => simp [mrb_field_write_barrier, ho, hv, hb]
    | true => simp [mrb_field_write_barrier, ho, hv, hb, hw]
  · intro hr
    cases hb : is_black so with
    | false => simp [mrb_field_write_barrier, ho, hv, hb]
    | true =>
      have hcol : sv.gc_color = GC_RED := by
        have hb2 := hr
        unfold is_red at hb2
        simpa using hb2
      have hw : is_white sv = true := by
        unfold is_white
        rw [hcol]
        decide
      simp [mrb_field_write_barrier, ho, hv, hb, hw, hr]
  · intro hb hw hr
    have hne : obj ≠ v := by
      intro he
      rw [he, hv] at ho
      have hso : so = sv := by
        injection ho with h2
        exact h2.symm
      have hbw : is_white so = false := by
        have hc : so.gc_color = GC_BLACK := by
          have hb2 := hb
          unfold is_black at hb2
          simpa using hb2
        unfold is_white
        rw [hc]
        decide
      rw [hso, hw] at hbw
      simp at hbw
    constructor
    · intro hgm
      have he : mrb_field_write_barrier s obj (some v) = add_gray_list s v := by
        rcases hgm with hg | hm
        · simp [mrb_field_write_barrier, ho, hv, hb, hw, hr, is_generational, hg]
        · simp [mrb_field_write_barrier, ho, hv, hb, hw, hr, hm]
      refine ⟨he, ?_⟩
      rw [he]
      show (v :: (paint_color s v GC_GRAY).gray_list) = v :: s.gray_list
      rw [gray_list_paint]
    · intro hg hm
      have he : mrb_field_write_barrier s obj (some v) =
          paint_color s obj s.current_white_part := by
        simp [mrb_field_write_barrier, ho, hv, hb, hw, hr, is_generational, hg, hm]
      refine ⟨he, ?_⟩
      rw [he, paint_color_eq_heapSet s obj so s.current_white_part ho]
      rw [heapGet_heapSet_ne s obj v _ hne]
      exact hv

/-- C4 witness: the theorem applied in a concrete mark-phase state; the
barrier pushes the white value onto the gray list. -/
theorem field_write_barrier_spec_witness :
    mrb_field_write_barrier sW4 (0, 0) (some (0, 1)) = add_gray_list sW4 (0, 1) ∧
      (mrb_field_write_barrier sW4 (0, 0) (some (0, 1))).gray_list =
        (0, 1) :: sW4.gray_list :=
  ((field_write_barrier_spec sW4 (0, 0) (0, 1) slotBlack slotWhiteB rfl rfl).2.2.2.2
    rfl rfl rfl).1 (Or.inr rfl)

/-- C10: mrb_calloc returns null without consulting the host allocator
whenever either count is zero or the product would overflow size_t;
otherwise a successful allocation returns a fully zeroed block of
nelem * len bytes. -/
theorem calloc_spec (s : MrbState) (host : Nat → Option Unit) (nelem len : Nat) :
    (nelem = 0 ∨ len = 0 ∨ SIZE_MAX / len < nelem →
      mrb_calloc s host nelem len = (CallocResult.ok s none, 0)) ∧
    (0 < nelem → 0 < len → nelem ≤ SIZE_MAX / len → host 0 = some () →
      mrb_calloc s host nelem len =
        (CallocResult.ok { s with out_of_memory := false }
          (some (List.replicate (nelem * len) 0)), 1)) := by
  constructor
  · intro hd
    have hneg : ¬(0 < nelem ∧ 0 < len ∧ nelem ≤ SIZE_MAX / len) := by
      intro hc
      rcases hd with h | h | h
      · omega
      · omega
      · exact absurd (Nat.lt_of_le_of_lt hc.2.2 h) (Nat.lt_irrefl _)
    unfold mrb_calloc
    rw [if_neg hneg]
  · intro h1 h2 h3 h4
    have hsize : ¬(nelem * len = 0) := by
      have := Nat.mul_pos h1 h2
      omega
    have hs2 : mrb_realloc_simple s host (nelem * len) = (some (), s, 1) := by
      unfold mrb_realloc_simple
      rw [h4]
      rw [if_neg (by simp)]
    have hm : mrb_malloc s host (nelem * len) =
        (AllocResult.ok { s with out_of_memory := false } (some ()), 1) := by
      unfold mrb_malloc mrb_realloc
      rw [hs2]
      rw [if_neg hsize]
    unfold mrb_calloc
    rw [if_pos ⟨h1, h2, h3⟩]
    simp only [hm]

/-- C10 witness: the theorem applied at a concrete request of 3 elements of
4 bytes with a succeeding host; a 12-byte zeroed block comes back from one
host call. -/
theorem calloc_spec_witness :
    mrb_calloc baseState hostSome 3 4 =
      (CallocResult.ok { baseState with out_of_memory := false }
        (some (List.replicate 12 0)), 1) :=
  (calloc_spec baseState hostSome 3 4).2 (by decide) (by decide) (by decide) rfl

/-- C7: the claim says a null host result during normal allocation always
triggers exactly one full GC and one retry. The code only does so when a
heap page exists and the collector is not in its sweep phase, so the amended
statement proved here adds those two conditions; under them, the failing
first call leads to one mrb_full_gc and exactly one retry, a second failure
sets the out_of_memory latch and raises, and any successful allocation
clears the latch. -/
theorem realloc_retry_spec (s : MrbState) (host : Nat → Option Unit) (len : Nat)
    (hlen : 0 < len) (hheaps : s.heaps ≠ []) (hstate : s.state ≠ GCPhase.sweep)
    (hfail : host 0 = none) :
    mrb_realloc_simple s host len = (host 1, mrb_full_gc s, 2) ∧
    (host 1 = none →
      mrb_realloc s host len =
        (AllocResult.nomem { mrb_full_gc s with out_of_memory := true }, 2)) ∧
    (host 1 = some () →
      mrb_realloc s host len =
        (AllocResult.ok { mrb_full_gc s with out_of_memory := false } (some ()), 2)) ∧
    (∀ host2 : Nat → Option Unit, host2 0 = some () →
      mrb_realloc s host2 len =
        (AllocResult.ok { s with out_of_memory := false } (some ()), 1)) := by
  have hs : mrb_realloc_simple s host len = (host 1, mrb_full_gc s, 2) := by
    unfold mrb_realloc_simple
    rw [hfail]
    rw [if_pos ⟨rfl, hlen, hheaps, hstate⟩]
  refine ⟨hs, ?_, ?_, ?_⟩
  · intro h1
    unfold mrb_realloc
    rw [hs, h1]
    rw [if_neg (by omega)]
  · intro h1
    unfold mrb_realloc
    rw [hs, h1]
    rw [if_neg (by omega)]
  · intro host2 h0
    have hs2 : mrb_realloc_simple s host2 len = (some (), s, 1) := by
      unfold mrb_realloc_simple
      rw [h0]
      rw [if_neg (by simp)]
    unfold mrb_realloc
    rw [hs2]
    rw [if_neg (by omega)]

/-- C7 witness: the amended theorem applied to a resting collector with one
page and a host that always fails: one full GC, one retry, then the raise
with the latch set. -/
theorem realloc_retry_spec_witness :
    mrb_realloc sW7 hostNone 8 =
      (AllocResult.nomem { mrb_full_gc sW7 with out_of_memory := true }, 2) :=
  (realloc_retry_spec sW7 hostNone 8 (by decide) (by decide) (by decide) rfl).2.1 rfl

/-- C7 counterexample: the same failing host during the sweep phase: the
code makes exactly one host call, performs no full GC (the state is returned
untouched), and raises immediately, contradicting the claim as stated. -/
theorem realloc_sweep_no_retry_counterexample :
    sC7.state = GCPhase.sweep ∧ sC7.heaps ≠ [] ∧
    mrb_realloc_simple sC7 hostNone 8 = (none, sC7, 1) ∧
    mrb_realloc sC7 hostNone 8 =
      (AllocResult.nomem { sC7 with out_of_memory := true }, 1) := by
  refine ⟨rfl, by decide, rfl, rfl⟩

/-- C3: the claim says every entry into SWEEP happens with both gray lists
empty, including the entry inside clear_all_old. That is true for the
transition taken by incremental_gc out of the mark phase, but clear_all_old
can call prepare_incremental_sweep with gray objects pending (the asserts
there are commented out in the source), so the amended statement proved here
is: the mark-phase transition into SWEEP always leaves both gray lists
empty, and clear_all_old discards both lists by the time it returns. -/
theorem sweep_entry_gray_lists (s : MrbState) (limit : Nat) :
    (s.state = GCPhase.mark → s.gray_list = [] →
      (incremental_gc s limit).1.state = GCPhase.sweep ∧
      (incremental_gc s limit).1.gray_list = [] ∧
      (incremental_gc s limit).1.atomic_gray_list = []) ∧
    ((clear_all_old s).gray_list = [] ∧ (clear_all_old s).atomic_gray_list = []) := by
  constructor
  · intro hm hg
    have heq : (incremental_gc s limit).1 =
        prepare_incremental_sweep (final_marking_phase s) := by
      unfold incremental_gc
      rw [hm, hg]
      rfl
    rw [heq]
    refine ⟨rfl, ?_, ?_⟩
    · show (final_marking_phase s).gray_list = []
      exact (final_marking_empties s).1
    · show (final_marking_phase s).atomic_gray_list = []
      exact (final_marking_empties s).2
  · exact ⟨rfl, rfl⟩

/-- C3 witness: the amended theorem applied to a concrete resting MARK
state: it enters SWEEP with both lists empty. -/
theorem sweep_entry_gray_lists_witness :
    (incremental_gc sW3 SIZE_MAX).1.state = GCPhase.sweep ∧
    (incremental_gc sW3 SIZE_MAX).1.gray_list = [] ∧
    (incremental_gc sW3 SIZE_MAX).1.atomic_gray_list = [] :=
  (sweep_entry_gray_lists sW3 SIZE_MAX).1 rfl rfl

/-- C3 counterexample: in minor generational mode at ROOT, a field write
barrier grays a white object; switching generational mode off then runs
clear_all_old with full = false, and the state it hands to
prepare_incremental_sweep enters SWEEP carrying that gray object --
contradicting the claim that every sweep begins with empty gray lists. -/
theorem sweep_entry_gray_counterexample :
    sC3b = mrb_field_write_barrier sC3 (0, 0) (some (0, 1)) ∧
    sC3b.gray_list = [(0, 1)] ∧ sC3b.state = GCPhase.root ∧
    (prepare_incremental_sweep (clear_all_old_sweep_entry sC3b)).state =
      GCPhase.sweep ∧
    (prepare_incremental_sweep (clear_all_old_sweep_entry sC3b)).gray_list =
      [(0, 1)] :=
  ⟨rfl, rfl, rfl, rfl, rfl⟩

theorem genfull_finish_go (fuel : Nat) :
    ∀ s : MrbState,
      (incremental_gc_finish_go fuel s).generational = s.generational ∧
        (incremental_gc_finish_go fuel s).full = s.full := by
  induction fuel with
  | zero => intro s; exact ⟨rfl, rfl⟩
  | succ n ih =>
    intro s
    by_cases hr : (incremental_gc s SIZE_MAX).1.state = GCPhase.root
    · have he : incremental_gc_finish_go (n + 1) s = (incremental_gc s SIZE_MAX).1 := by
        simp [incremental_gc_finish_go, hr]
      rw [he]
      exact genfull_incremental_gc s SIZE_MAX
    · have he : incremental_gc_finish_go (n + 1) s =
          incremental_gc_finish_go n (incremental_gc s SIZE_MAX).1 := by
        simp [incremental_gc_finish_go, hr]
      rw [he]
      have h1 := ih (incremental_gc s SIZE_MAX).1
      have h2 := genfull_incremental_gc s SIZE_MAX
      exact ⟨h1.1.trans h2.1, h1.2.trans h2.2⟩

theorem genfull_finish (s : MrbState) :
    (incremental_gc_finish s).generational = s.generational ∧
      (incremental_gc_finish s).full = s.full :=
  genfull_finish_go (finish_fuel s) s

/-- C2: the claim says that after any cycle returns to ROOT the threshold is
max(live_after_mark * interval_ratio / 100, GC_STEP_SIZE), hence always at
least GC_STEP_SIZE. The code divides before multiplying, and mrb_full_gc
applies no clamp at all, so the amended statement proved here is: when
mrb_incremental_gc (non-generational mode) returns with the collector in
ROOT, threshold = max((live_after_mark / 100) * interval_ratio,
GC_STEP_SIZE), which is at least GC_STEP_SIZE; but mrb_full_gc sets
threshold = (live_after_mark / 100) * interval_ratio with no lower clamp
(in generational mode a completed major may immediately re-enter mrb_full_gc
with the same unclamped assignment). -/
theorem threshold_formula_after_cycle (s : MrbState)
    (hgen : s.generational = false) (hdis : s.disabled = false)
    (hit : s.iterating = false) (hc : s.c_present = true) :
    ((mrb_incremental_gc s).state = GCPhase.root →
      (mrb_incremental_gc s).threshold =
        max (((mrb_incremental_gc s).live_after_mark / 100) *
          (mrb_incremental_gc s).interval_ratio) GC_STEP_SIZE ∧
      GC_STEP_SIZE ≤ (mrb_incremental_gc s).threshold) ∧
    (mrb_full_gc s).threshold =
      ((mrb_full_gc s).live_after_mark / 100) * (mrb_full_gc s).interval_ratio := by
  have hmin : is_minor_gc s = false := by
    unfold is_minor_gc is_generational
    rw [hgen]
    rfl
  have hor : (s.disabled || s.iterating) = false := by
    rw [hdis, hit]
    rfl
  constructor
  · intro hroot
    have hgen1 : (incremental_gc_step s).generational = false :=
      (genfull_step s).1.trans hgen
    by_cases hs1 : (incremental_gc_step s).state = GCPhase.root
    · have heq : mrb_incremental_gc s =
          { incremental_gc_step s with
            threshold :=
              if ((incremental_gc_step s).live_after_mark / 100) *
                  (incremental_gc_step s).interval_ratio < GC_STEP_SIZE then GC_STEP_SIZE
              else ((incremental_gc_step s).live_after_mark / 100) *
                (incremental_gc_step s).interval_ratio } := by
        unfold mrb_incremental_gc
        rw [hor, hmin]
        simp only [Bool.false_eq_true, if_false, if_pos hs1]
        simp [is_major_gc, is_minor_gc, is_generational, hgen1]
      rw [heq]
      set t := ((incremental_gc_step s).live_after_mark / 100) *
        (incremental_gc_step s).interval_ratio with ht
      constructor
      · show (if t < GC_STEP_SIZE then GC_STEP_SIZE else t) = max t GC_STEP_SIZE
        by_cases hlt : t < GC_STEP_SIZE
        · rw [if_pos hlt]
          omega
        · rw [if_neg hlt]
          omega
      · show GC_STEP_SIZE ≤ (if t < GC_STEP_SIZE then GC_STEP_SIZE else t)
        by_cases hlt : t < GC_STEP_SIZE
        · rw [if_pos hlt]
        · rw [if_neg hlt]
          omega
    · have heq2 : mrb_incremental_gc s = incremental_gc_step s := by
        unfold mrb_incremental_gc
        rw [hor, hmin]
        simp only [Bool.false_eq_true, if_false, if_neg hs1]
      rw [heq2] at hroot
      exact absurd hroot hs1
  · have hgsel : is_generational s = false := by
      unfold is_generational
      exact hgen
    unfold mrb_full_gc
    rw [hc, hor]
    simp only [Bool.not_true, Bool.false_eq_true, if_false]
    rw [hgsel]
    simp only [Bool.false_eq_true, if_false]
    generalize (if s.state ≠ GCPhase.root then incremental_gc_finish s else s) = u
    generalize incremental_gc_finish u = w
    by_cases hgw : is_generational
        { w with threshold := (w.live_after_mark / 100) * w.interval_ratio }
    · rw [if_pos hgw]
    · rw [if_neg hgw]

/-- C2 witness: the amended theorem applied to the default non-generational
state; mrb_full_gc on it yields the unclamped formula. -/
theorem threshold_formula_after_cycle_witness :
    (mrb_full_gc baseState).threshold =
      ((mrb_full_gc baseState).live_after_mark / 100) *
        (mrb_full_gc baseState).interval_ratio :=
  (threshold_formula_after_cycle baseState rfl rfl rfl rfl).2

/-- C2 counterexample: a heap with a single rooted live object. The full GC
completes a cycle back to ROOT with live_after_mark = 1 and interval_ratio
200, and sets threshold to (1 / 100) * 200 = 0, which is below GC_STEP_SIZE
and below live_after_mark -- contradicting the claim that after every
completed cycle threshold = max(live_after_mark * interval_ratio / 100,
GC_STEP_SIZE) >= GC_STEP_SIZE. -/
theorem threshold_below_step_counterexample :
    (mrb_full_gc sC2).state = GCPhase.root ∧
    (mrb_full_gc sC2).threshold = 0 ∧
    (mrb_full_gc sC2).live_after_mark = 1 ∧
    (mrb_full_gc sC2).threshold < GC_STEP_SIZE ∧
    (mrb_full_gc sC2).threshold < (mrb_full_gc sC2).live_after_mark := by
  refine ⟨rfl, rfl, rfl, by decide, by decide⟩

/-- C5: the claim says a major cycle ending in ROOT stores
oldgen_threshold = live_after_mark * MAJOR_GC_INC_RATIO / 100 unless that
exceeds MAJOR_GC_TOOMANY, in which case a full GC runs instead. The code
divides before multiplying -- (live_after_mark / 100) * 120 -- and takes the
full-GC branch at >= 10000; since (live_after_mark / 100) * 120 is always a
multiple of 120 and 10000 is not, the boundary is observably the same, so
the amended statement proved here changes only the formula: with t =
(live_after_mark / 100) * MAJOR_GC_INC_RATIO taken at the end of the step,
either t < 10000 and oldgen_threshold := t with full cleared, or the cycle
re-enters mrb_full_gc. -/
theorem major_cycle_oldgen_threshold (s : MrbState)
    (hdis : s.disabled = false) (hit : s.iterating = false)
    (hgen : s.generational = true) (hfull : s.full = true)
    (hroot : (incremental_gc_step s).state = GCPhase.root) :
    (((incremental_gc_step s).live_after_mark / 100) * major_gc_inc_percent <
        major_gc_toomany →
      (mrb_incremental_gc s).oldgen_threshold =
        ((incremental_gc_step s).live_after_mark / 100) * major_gc_inc_percent ∧
      (mrb_incremental_gc s).full = false) ∧
    (major_gc_toomany ≤
        ((incremental_gc_step s).live_after_mark / 100) * major_gc_inc_percent →
      mrb_incremental_gc s =
        mrb_full_gc
          { incremental_gc_step s with
            threshold :=
              if ((incremental_gc_step s).live_after_mark / 100) *
                  (incremental_gc_step s).interval_ratio < GC_STEP_SIZE then GC_STEP_SIZE
              else ((incremental_gc_step s).live_after_mark / 100) *
                (incremental_gc_step s).interval_ratio,
            full := false }) := by
  have hmin : is_minor_gc s = false := by
    unfold is_minor_gc is_generational
    rw [hgen, hfull]
    rfl
  have hor : (s.disabled || s.iterating) = false := by
    rw [hdis, hit]
    rfl
  have hgen1 : (incremental_gc_step s).generational = true :=
    (genfull_step s).1.trans hgen
  have hfull1 : (incremental_gc_step s).full = true :=
    (genfull_step s).2.trans hfull
  constructor
  · intro hlt
    have heq : mrb_incremental_gc s =
        { incremental_gc_step s with
          threshold :=
            if ((incremental_gc_step s).live_after_mark / 100) *
                (incremental_gc_step s).interval_ratio < GC_STEP_SIZE then GC_STEP_SIZE
            else ((incremental_gc_step s).live_after_mark / 100) *
              (incremental_gc_step s).interval_ratio,
          full := false,
          oldgen_threshold :=
            ((incremental_gc_step s).live_after_mark / 100) * major_gc_inc_percent } := by
      unfold mrb_incremental_gc
      rw [hor, hmin]
      simp only [Bool.false_eq_true, if_false, if_pos hroot]
      simp [is_major_gc, is_minor_gc, is_generational, hgen1, hfull1, if_pos hlt]
    rw [heq]
    exact ⟨rfl, rfl⟩
  · intro hge
    have hnlt : ¬(((incremental_gc_step s).live_after_mark / 100) *
        major_gc_inc_percent < major_gc_toomany) := by omega
    unfold mrb_incremental_gc
    rw [hor, hmin]
    simp only [Bool.false_eq_true, if_false, if_pos hroot]
    simp [is_major_gc, is_minor_gc, is_generational, hgen1, hfull1, if_neg hnlt]

/-- C5 witness: the amended theorem applied to a major cycle with
live_after_mark 150: (150 / 100) * 120 = 120 < 10000, so that value is
stored and full is cleared. -/
theorem major_cycle_oldgen_threshold_witness :
    (mrb_incremental_gc sC5).oldgen_threshold =
      ((incremental_gc_step sC5).live_after_mark / 100) * major_gc_inc_percent ∧
    (mrb_incremental_gc sC5).full = false :=
  (major_cycle_oldgen_threshold sC5 rfl rfl rfl rfl (by decide)).1 (by decide)

/-- C5 counterexample: a major cycle ending with live_after_mark 150 stores
oldgen_threshold = (150 / 100) * 120 = 120, while the formula of the claim,
150 * 120 / 100, equals 180 -- the code divides before multiplying. -/
theorem oldgen_threshold_formula_counterexample :
    (mrb_incremental_gc sC5).live_after_mark = 150 ∧
    (mrb_incremental_gc sC5).oldgen_threshold = 120 ∧
    150 * major_gc_inc_percent / 100 = 180 ∧ (120 : Nat) ≠ 180 := by
  refine ⟨rfl, rfl, by decide, by decide⟩

/-- C8: the claim describes a successful mrb_obj_alloc: slot popped from a
page free list, tag and class installed, everything else zeroed, painted
with the current white, pushed on top of the arena, and live incremented by
exactly one. The last point is false relative to the state at entry, because
the threshold-triggered incremental step can free objects first; the
amended statement proved here asserts all of it relative to the state
obj_alloc_pre s reached after that step (and after the arena and page
checks): live is one more than there, the new object is the arena top, its
slot index is the head of the first free page's free list, and its slot
holds exactly the tag, a null class, zeroed fields and the current white. -/
theorem obj_alloc_spec (s : MrbState) (ttype : Nat) (cls : Option ObjId)
    (hcheck : obj_alloc_check s ttype cls = Except.ok ())
    (htt : MRB_TT_FREE < ttype)
    (pid idx : Nat) (fhRest flRest : List Nat) (pg : Page)
    (hfh : (obj_alloc_pre s).free_heaps = pid :: fhRest)
    (hpg : findPage (obj_alloc_pre s).heaps pid = some pg)
    (hfl : pg.freelist = idx :: flRest)
    (hidx : idx < pg.objects.length) :
    ∃ r : MrbState,
      mrb_obj_alloc s ttype cls = Except.ok (r, (pid, idx)) ∧
      r.live = (obj_alloc_pre s).live + 1 ∧
      r.arena = (obj_alloc_pre s).arena ++ [(pid, idx)] ∧
      r.current_white_part = (obj_alloc_pre s).current_white_part ∧
      heapGet r (pid, idx) = some (freshSlot ttype cls r.current_white_part) := by
  refine ⟨heapSet
    (gc_protect
      { obj_alloc_pre s with
        heaps := updatePage (obj_alloc_pre s).heaps pid
          (fun q => { q with freelist := flRest }),
        free_heaps := if flRest.isEmpty then fhRest else (obj_alloc_pre s).free_heaps,
        live := (obj_alloc_pre s).live + 1 }
      (pid, idx))
    (pid, idx)
    (freshSlot ttype cls (obj_alloc_pre s).current_white_part), ?_, rfl, rfl, rfl, ?_⟩
  · simp only [mrb_obj_alloc, hcheck, hfh, hpg, hfl, if_neg (Nat.not_le.mpr htt)]
    rfl
  · have hfp6 : findPage (updatePage (obj_alloc_pre s).heaps pid
        (fun q => { q with freelist := flRest })) pid =
        some { pg with freelist := flRest } := by
      rw [findPage_updatePage_self (obj_alloc_pre s).heaps pid
        (fun q => { q with freelist := flRest }) (fun q => rfl), hpg]
      rfl
    exact heapGet_heapSet_self _ (pid, idx) _ { pg with freelist := flRest } hfp6 hidx

/-- C8 witness: the amended theorem applied to a resting state (threshold
not reached) with a fresh two-slot page: the popped slot is index 1, live
goes from 0 to 1, and the new object tops the arena. -/
theorem obj_alloc_spec_witness :
    ∃ r : MrbState,
      mrb_obj_alloc sW8 MRB_TT_OBJECT none = Except.ok (r, (0, 1)) ∧
      r.live = (obj_alloc_pre sW8).live + 1 ∧
      r.arena = (obj_alloc_pre sW8).arena ++ [(0, 1)] ∧
      r.current_white_part = (obj_alloc_pre sW8).current_white_part ∧
      heapGet r (0, 1) = some (freshSlot MRB_TT_OBJECT none r.current_white_part) :=
  obj_alloc_spec sW8 MRB_TT_OBJECT none rfl (by decide) 0 1 [] [0] pgW8 rfl rfl rfl
    (by decide)

/-- C8 counterexample: a collector over threshold in mid-sweep with one dead
object. The allocation first runs the incremental step, which reclaims the
dead object (live 5 becomes 4), then allocates (live back to 5): the call
succeeds but the live counter is not incremented by exactly one relative to
the caller's state, contradicting the claim as stated. -/
theorem obj_alloc_live_counterexample :
    sC8.live = 5 ∧ sC8.threshold < sC8.live ∧
    allocResultLive (mrb_obj_alloc sC8 MRB_TT_OBJECT none) = some 5 ∧
    allocResultLive (mrb_obj_alloc sC8 MRB_TT_OBJECT none) ≠ some (sC8.live + 1) := by
  refine ⟨rfl, by decide, rfl, by decide⟩

end MrubyGC
